import Mathlib

/-!
Shallow embedding of `cob_robot_calibration_est/sensors/camera_chain_sensor.py`
(the measurement model of the cob_calibration repository) together with proofs
about the claims of its specification.

Python floats are embedded as exact rationals; numpy row-major matrices of
runtime-determined size are embedded as `List (List Q)`.  External capabilities
that live outside the provided sources (forward kinematics of
`FullChainRobotParams`, the camera projection, scipy's principal matrix square
root) appear as explicit function-valued fields or arguments, modelled from the
specification.
-/

namespace CobCalib

/-- Rational scalars stand in for the Python floats: the embedding is exact. -/
abbrev Q := ℚ

/-- Fixed finite-difference step of `compute_cov` (source: `epsilon = 1e-8`). -/
def epsFD : Q := 1 / 100000000

/-- Realness tolerance of `compute_marginal_gamma_sqrt` (source: `1e-6`). -/
def tolReal : Q := 1 / 1000000

/-- Entry (i, j) of a row-major list matrix, 0 outside the stored range. -/
def getEntry (M : List (List Q)) (i j : Nat) : Q := (M.getD i []).getD j 0

/-- Zero matrix `numpy.zeros([r, c])`. -/
def matZeros (r c : Nat) : List (List Q) :=
  List.replicate r (List.replicate c 0)

/-- Single-entry write `M[i, j] = x`; writes outside the stored range vanish. -/
def matSet (M : List (List Q)) (i j : Nat) (x : Q) : List (List Q) :=
  M.set i ((M.getD i []).set j x)

/-- Dot product of two rows. -/
def dotQ (xs ys : List Q) : Q := (List.zipWith (fun a b => a * b) xs ys).sum

/-- Row-major matrix product: entry (i, j) is the sum over k of A[i][k] * B[k][j]. -/
def matMul (A B : List (List Q)) : List (List Q) :=
  A.map (fun Arow =>
    (List.range (B.headD []).length).map (fun j =>
      (List.zipWith (fun a Brow => a * Brow.getD j 0) Arow B).sum))

/-- Matrix transpose of a row-major list matrix. -/
def matTranspose (M : List (List Q)) : List (List Q) :=
  (List.range (M.headD []).length).map (fun j => M.map (fun row => row.getD j 0))

/-- Diagonal matrix `numpy.diag(xs)`. -/
def diagQ (xs : List Q) : List (List Q) :=
  (List.range xs.length).map (fun i =>
    (List.range xs.length).map (fun j => if i = j then xs.getD i 0 else 0))

/-- Elementwise sum of two matrices of identical shape. -/
def matAdd (A B : List (List Q)) : List (List Q) :=
  List.zipWith (fun ra rb => List.zipWith (fun a b => a + b) ra rb) A B

/-- Matrix-vector product (`gamma_sqrt * matrix(r).T`, flattened back). -/
def matVec (M : List (List Q)) (v : List Q) : List Q :=
  M.map (fun row => dotQ row v)

/-- Row-major flattening of an Nx2 matrix, `reshape(-, [-1])`. -/
def flatten2 : List (Q × Q) → List Q
  | [] => []
  | p :: rest => p.1 :: p.2 :: flatten2 rest

/-- sensor_msgs/JointState restricted to the joint positions the code reads. -/
structure JointState where
  position : List Q
  deriving DecidableEq

/-- Camera info carrying the projection matrix `P` (opaque to the core). -/
structure CameraInfo where
  P : List (List Q)
  deriving DecidableEq

/-- calibration_msgs/CameraMeasurement restricted to the fields the code reads. -/
structure CameraMeasurement where
  camera_id : String
  image_points : List (Q × Q)
  cam_info : CameraInfo
  deriving DecidableEq

/-- calibration_msgs/ChainMeasurement restricted to the fields the code reads. -/
structure ChainMeasurement where
  chain_id : String
  chain_state : JointState
  deriving DecidableEq

/-- Chain part of a configuration descriptor (`config_dict["chain"]`). -/
structure ChainConfig where
  before_chain : List String
  chain_id : Option String
  after_chain : List String
  dh_link_num : Nat
  deriving DecidableEq

/-- One configuration descriptor from the valid_configs library. -/
structure SensorConfig where
  camera_id : String
  sensor_id : String
  chain : ChainConfig
  deriving DecidableEq

/-- calibration_msgs/RobotMeasurement: one calibration sample. -/
structure RobotMeasurement where
  M_cam : List CameraMeasurement
  M_chain : List ChainMeasurement
  deriving DecidableEq

/-- Modelled from the spec: the resolved chain parameters
(`self._chain.calc_block._chain` of `cob_robot_calibration_est.full_chain`,
whose source is not provided): per-joint standard deviations
(`_cov_dict['joint_angles']`) and the link count `_M`. -/
structure DhChain where
  cov_joint_angles : List Q
  M : Nat

/-- Modelled from the spec: the resolved `calc_block` of `FullChainRobotParams`,
carrying the chain parameters and the ForwardKinematics capability `fk` that
yields the camera pose in the root frame from an optional joint state. -/
structure CalcBlock where
  chainInfo : DhChain
  fk : Option JointState → Matrix (Fin 4) (Fin 4) Q

/-- Modelled from the spec: a rectified camera resolved from the snapshot.  It
carries the per-axis noise standard deviations (`_cov_dict['u']`,
`_cov_dict['v']`), the intrinsic parameter names of `get_param_names()`, and
the Projection capability `project`, returning a 2xN pixel matrix as a pair of
rows (the caller transposes it to Nx2). -/
structure RectifiedCam where
  cov_u : Q
  cov_v : Q
  param_names : List String
  project : List (List Q) → List (Fin 4 → Q) → List Q × List Q

/-- Parameter snapshot given to update_config: the identifier-keyed camera
dictionary `robot_params.rectified_cams` and, modelled from the spec, the
resolution of chain sub-parameters done by `FullChainRobotParams.update_config`. -/
structure RobotParams where
  rectified_cams : List (String × RectifiedCam)
  resolve_chain : ChainConfig → Option CalcBlock

/-- Error outcomes of the embedded operations.  The spec's taxonomy names
DimensionMismatch, UnknownParameterId, UnknownChainReference,
NonPositiveDefiniteCovariance and NotBound; ValueErrorShape (a numpy broadcast
shape error), SingularCovariance (numpy LinAlgError) and AssertionFailed (a
bare Python assert) are embedding-level outcomes outside that taxonomy. -/
inductive Err where
  | DimensionMismatch
  | UnknownParameterId
  | UnknownChainReference
  | NonPositiveDefiniteCovariance
  | NotBound
  | ValueErrorShape
  | SingularCovariance
  | AssertionFailed
  deriving DecidableEq

/-- Parameters a sensor holds only after a successful update_config: the
resolved camera (`self._camera`) and the resolved chain (`self._chain`'s
calc_block). -/
structure BoundParams where
  camera : RectifiedCam
  calc_block : CalcBlock

/-- CameraChainSensor: configuration, the two bound measurements, and the
snapshot-resolved parameters (none before the first update_config, mirroring
the Python object whose `_camera` attribute is unset until then). -/
structure CameraChainSensor where
  config_dict : SensorConfig
  M_cam : CameraMeasurement
  M_chain : Option ChainMeasurement
  bound : Option BoundParams

/-- CameraChainSensor.__init__: stores configuration and measurements; no
snapshot parameters are resolved yet. -/
def mkCameraChainSensor (config_dict : SensorConfig) (M_cam : CameraMeasurement)
    (M_chain : Option ChainMeasurement) : CameraChainSensor :=
  ⟨config_dict, M_cam, M_chain, none⟩

/-- CameraChainSensor.sensor_id (source line 115: the configured camera_id). -/
def CameraChainSensor.sensor_id (s : CameraChainSensor) : String :=
  s.config_dict.camera_id

/-- CameraChainBundler.build_blocks, inner loop.  `break` on a configured,
non-null chain identifier absent from the sample returns the sensors
accumulated so far; a descriptor whose camera is absent is skipped. -/
def build_blocks_aux (M_robot : RobotMeasurement) :
    List SensorConfig → List CameraChainSensor → List CameraChainSensor
  | [], sensors => sensors
  | cur_config :: rest, sensors =>
    match M_robot.M_cam.find? (fun x => x.camera_id == cur_config.camera_id) with
    | none => build_blocks_aux M_robot rest sensors
    | some M_cam =>
      match cur_config.chain.chain_id with
      | some cid =>
        match M_robot.M_chain.find? (fun x => x.chain_id == cid) with
        | some M_chain =>
          build_blocks_aux M_robot rest
            (sensors ++ [mkCameraChainSensor cur_config M_cam (some M_chain)])
        | none => sensors
      | none =>
        build_blocks_aux M_robot rest
          (sensors ++ [mkCameraChainSensor cur_config M_cam none])

/-- CameraChainBundler.build_blocks: walk the configuration library in order
and collect a sensor for each configuration found in the sample. -/
def CameraChainBundler.build_blocks (valid_configs : List SensorConfig)
    (M_robot : RobotMeasurement) : List CameraChainSensor :=
  build_blocks_aux M_robot valid_configs []

/-- Dictionary lookup `robot_params.rectified_cams[camera_id]`. -/
def lookupCamDict (d : List (String × RectifiedCam)) (k : String) :
    Option RectifiedCam :=
  (d.find? (fun p => p.1 == k)).map (fun p => p.2)

/-- CameraChainSensor.update_config: rebinds the sensor to the current
snapshot; a missing camera or chain identifier is the spec's
UnknownParameterId (Python: a KeyError from the dictionary lookup). -/
def CameraChainSensor.update_config (s : CameraChainSensor)
    (robot_params : RobotParams) : Except Err CameraChainSensor :=
  match lookupCamDict robot_params.rectified_cams s.config_dict.camera_id with
  | none => .error .UnknownParameterId
  | some cam =>
    match robot_params.resolve_chain s.config_dict.chain with
    | none => .error .UnknownParameterId
    | some cb => .ok { s with bound := some ⟨cam, cb⟩ }

/-- CameraChainSensor.get_measurement: observed pixel points as an Nx2 matrix. -/
def CameraChainSensor.get_measurement (s : CameraChainSensor) : List (Q × Q) :=
  s.M_cam.image_points.map (fun pt => (pt.1, pt.2))

/-- CameraChainSensor.get_residual_length (source: `N * 2`). -/
def CameraChainSensor.get_residual_length (s : CameraChainSensor) : Nat :=
  s.M_cam.image_points.length * 2

/-- Inverse of the numpy 4x4 pose (`camera_pose_root.I`) for an invertible pose. -/
def poseInv (A : Matrix (Fin 4) (Fin 4) Q) : Matrix (Fin 4) (Fin 4) Q :=
  A.det⁻¹ • A.adjugate

/-- CameraChainSensor._compute_expected on resolved parameters: forward
kinematics, transform of the target points (given as homogeneous columns)
into the camera frame, projection, and the final transpose to Nx2. -/
def computeExpectedCore (b : BoundParams) (cam_info : CameraInfo)
    (chain_state : Option JointState) (target_pts : List (Fin 4 → Q)) :
    List (Q × Q) :=
  let camera_pose_root := b.calc_block.fk chain_state
  let cam_frame_pts := target_pts.map (fun p => (poseInv camera_pose_root).mulVec p)
  let pixel_pts := b.camera.project cam_info.P cam_frame_pts
  pixel_pts.1.zip pixel_pts.2

/-- CameraChainSensor.compute_expected: dispatch on the presence of a chain
measurement; evaluation on an unresolved sensor is the spec's NotBound
(Python: AttributeError on the unset `_camera`). -/
def CameraChainSensor.compute_expected (s : CameraChainSensor)
    (target_pts : List (Fin 4 → Q)) : Except Err (List (Q × Q)) :=
  match s.bound with
  | none => .error .NotBound
  | some b =>
    match s.M_chain with
    | some mc => .ok (computeExpectedCore b s.M_cam.cam_info (some mc.chain_state) target_pts)
    | none => .ok (computeExpectedCore b s.M_cam.cam_info none target_pts)

/-- Difference of an Nx2 and an N'x2 numpy matrix with broadcasting: equal
leading dimensions subtract pointwise, a leading dimension of one broadcasts
over the other operand, and any other disagreement is a shape ValueError. -/
def npSub2 (h z : List (Q × Q)) : Except Err (List (Q × Q)) :=
  if h.length = z.length then
    .ok (List.zipWith (fun a b => (a.1 - b.1, a.2 - b.2)) h z)
  else
    match h, z with
    | [a], _ => .ok (z.map (fun b => (a.1 - b.1, a.2 - b.2)))
    | _, [b] => .ok (h.map (fun a => (a.1 - b.1, a.2 - b.2)))
    | _, _ => .error .ValueErrorShape

/-- CameraChainSensor.compute_residual: flattened `h_mat - z_mat`.  The
source's third assertion compares `z_mat.shape[0]` with itself (line 148), so
its guard can never fire; the `shape[1] == 2` assertions hold by construction
of the row type. -/
def CameraChainSensor.compute_residual (s : CameraChainSensor)
    (target_pts : List (Fin 4 → Q)) : Except Err (List Q) :=
  match s.compute_expected target_pts with
  | .error e => .error e
  | .ok h_mat =>
    if s.get_measurement.length = s.get_measurement.length then
      match npSub2 h_mat s.get_measurement with
      | .error e => .error e
      | .ok d => .ok (flatten2 d)
    else .error .DimensionMismatch

/-- Flattened expected-pixel vector used by the finite-difference loop
(source: `reshape(array(self._compute_expected(x, target_pts)), [-1])`). -/
def flatExpected (b : BoundParams) (cam_info : CameraInfo) (pos : List Q)
    (target_pts : List (Fin 4 → Q)) : List Q :=
  flatten2 (computeExpectedCore b cam_info (some ⟨pos⟩) target_pts)

/-- Joint state perturbed in exactly one coordinate (source: a fresh copy of
the measured positions, then `x.position[i] += epsilon`). -/
def perturbPos (base : List Q) (i : Nat) : List Q :=
  base.set i (base.getD i 0 + epsFD)

/-- Finite-difference Jacobian of compute_cov: row i is
`(f(base perturbed at i) - f(base)) / epsilon`, the base value being computed
once before the loop. -/
def computeJt (b : BoundParams) (cam_info : CameraInfo) (base : List Q)
    (target_pts : List (Fin 4 → Q)) : List (List Q) :=
  let f0 := flatExpected b cam_info base target_pts
  (List.range base.length).map (fun i =>
    let fTest := flatExpected b cam_info (perturbPos base i) target_pts
    List.zipWith (fun ft f0k => (ft - f0k) / epsFD) fTest f0)

/-- Camera-noise covariance loop of compute_cov: `count` passes over a zero
matrix, writing var_u and var_v on the diagonal, one pair per observed point. -/
def camCovLoop (res_len : Nat) (var_u var_v : Q) (count : Nat) : List (List Q) :=
  (List.range count).foldl
    (fun M k => matSet (matSet M (2 * k) (2 * k) var_u) (2 * k + 1) (2 * k + 1) var_v)
    (matZeros res_len res_len)

/-- CameraChainSensor.compute_cov: chain-induced covariance (finite-difference
Jacobian, squared per-joint standard deviations) plus the diagonal
camera-noise covariance; camera-only sensors return the latter alone. -/
def CameraChainSensor.compute_cov (s : CameraChainSensor)
    (target_pts : List (Fin 4 → Q)) : Except Err (List (List Q)) :=
  match s.bound with
  | none => .error .NotBound
  | some b =>
    let cam_cov := camCovLoop s.get_residual_length
      (b.camera.cov_u * b.camera.cov_u) (b.camera.cov_v * b.camera.cov_v)
      (s.get_residual_length / 2)
    match s.M_chain with
    | some mc =>
      let Jt := computeJt b s.M_cam.cam_info mc.chain_state.position target_pts
      let cov_angles := b.calc_block.chainInfo.cov_joint_angles.map (fun x => x * x)
      let chain_cov := matMul (matMul (matTranspose Jt) (diagQ cov_angles)) Jt
      .ok (matAdd chain_cov cam_cov)
    | none => .ok cam_cov

/-- Real 2x2 matrix [[a, b], [c, d]]. -/
structure Mat2 where
  a : Q
  b : Q
  c : Q
  d : Q
  deriving DecidableEq

/-- Complex 2x2 matrix, each entry a (real, imaginary) pair. -/
structure CMat2 where
  a : Q × Q
  b : Q × Q
  c : Q × Q
  d : Q × Q
  deriving DecidableEq

/-- Determinant of a 2x2 block. -/
def det2 (m : Mat2) : Q := m.a * m.d - m.b * m.c

/-- Closed form of the 2x2 inverse (meaningful when the determinant is nonzero). -/
def inv2Closed (m : Mat2) : Mat2 :=
  ⟨m.d / det2 m, -m.b / det2 m, -m.c / det2 m, m.a / det2 m⟩

/-- numpy 2x2 matrix inverse `sub_cov.I`; a singular block raises LinAlgError. -/
def inv2 (m : Mat2) : Except Err Mat2 :=
  if det2 m = 0 then .error .SingularCovariance else .ok (inv2Closed m)

/-- Real part `numpy.real` of a complex 2x2 matrix. -/
def re2 (m : CMat2) : Mat2 := ⟨m.a.1, m.b.1, m.c.1, m.d.1⟩

/-- Squared Frobenius norm of the imaginary part discarded by `real(...)`: the
source compares `scipy.linalg.norm(full - real_part)` with 1e-6, equivalently
this square with 1e-12. -/
def imNormSq (m : CMat2) : Q :=
  m.a.2 * m.a.2 + m.b.2 * m.b.2 + m.c.2 * m.c.2 + m.d.2 * m.d.2

/-- Diagonal 2x2 block of the covariance at rows and columns 2k and 2k+1. -/
def subCov2 (cov : List (List Q)) (k : Nat) : Mat2 :=
  ⟨getEntry cov (2 * k) (2 * k), getEntry cov (2 * k) (2 * k + 1),
   getEntry cov (2 * k + 1) (2 * k), getEntry cov (2 * k + 1) (2 * k + 1)⟩

/-- Slice assignment `gamma[2k:2k+2, 2k:2k+2] = m`. -/
def writeBlock (gamma : List (List Q)) (k : Nat) (m : Mat2) : List (List Q) :=
  matSet (matSet (matSet (matSet gamma (2 * k) (2 * k) m.a)
    (2 * k) (2 * k + 1) m.b) (2 * k + 1) (2 * k) m.c) (2 * k + 1) (2 * k + 1) m.d

/-- Block loop of compute_marginal_gamma_sqrt: invert each diagonal 2x2 block,
take its principal square root through the external `sqrtm` capability, keep
the real part only when the discarded imaginary part passes the realness
assertion, and assemble the blocks; a failing assertion is the spec's
NonPositiveDefiniteCovariance. -/
def gammaLoop (sqrtm : Mat2 → CMat2) (cov : List (List Q)) :
    List Nat → List (List Q) → Except Err (List (List Q))
  | [], gamma => .ok gamma
  | k :: rest, gamma =>
    match inv2 (subCov2 cov k) with
    | .error e => .error e
    | .ok invBlock =>
      let sub_gamma_sqrt_full := sqrtm invBlock
      let sub_gamma_sqrt := re2 sub_gamma_sqrt_full
      if imNormSq sub_gamma_sqrt_full < tolReal * tolReal then
        gammaLoop sqrtm cov rest (writeBlock gamma k sub_gamma_sqrt)
      else .error .NonPositiveDefiniteCovariance

/-- CameraChainSensor.compute_marginal_gamma_sqrt: the per-point block
inversion and square-root loop over `gamma = zeros(cov.shape)`. -/
def CameraChainSensor.compute_marginal_gamma_sqrt (s : CameraChainSensor)
    (sqrtm : Mat2 → CMat2) (target_pts : List (Fin 4 → Q)) :
    Except Err (List (List Q)) :=
  match s.compute_cov target_pts with
  | .error e => .error e
  | .ok cov =>
    let num_pts := s.get_residual_length / 2
    gammaLoop sqrtm cov (List.range num_pts)
      (matZeros cov.length (cov.headD []).length)

/-- CameraChainSensor.compute_residual_scaled: residual premultiplied by the
information-matrix square root. -/
def CameraChainSensor.compute_residual_scaled (s : CameraChainSensor)
    (sqrtm : Mat2 → CMat2) (target_pts : List (Fin 4 → Q)) : Except Err (List Q) :=
  match s.compute_residual target_pts with
  | .error e => .error e
  | .ok r =>
    match s.compute_marginal_gamma_sqrt sqrtm target_pts with
    | .error e => .error e
    | .ok gamma_sqrt => .ok (matVec gamma_sqrt r)

/-- Per-chain entry of the sparsity dictionary. -/
structure SparsityChain where
  dh : List (List Nat)
  gearing : List Nat
  deriving DecidableEq

/-- Sparsity dictionary of build_sparsity_dict. -/
structure SparsityDict where
  transforms : List (String × List Nat)
  dh_chains : List (Option String × SparsityChain)
  rectified_cams : List (String × List (String × Nat))
  deriving DecidableEq

/-- CameraChainSensor.build_sparsity_dict: presence map over the configured
transform names, the chain links and the camera parameter names; the source
asserts that the resolved link count equals the number of measured joint
positions. -/
def CameraChainSensor.build_sparsity_dict (s : CameraChainSensor) :
    Except Err SparsityDict :=
  match s.bound with
  | none => .error .NotBound
  | some b =>
    let transforms :=
      (s.config_dict.chain.before_chain ++ s.config_dict.chain.after_chain).map
        (fun nm => (nm, [1, 1, 1, 1, 1, 1]))
    match s.M_chain with
    | some mc =>
      let num_links := b.calc_block.chainInfo.M
      if num_links = mc.chain_state.position.length then
        .ok { transforms := transforms
              dh_chains := [(s.config_dict.chain.chain_id,
                ⟨List.replicate num_links [1, 1, 1, 1], List.replicate num_links 1⟩)]
              rectified_cams := [(s.sensor_id, b.camera.param_names.map (fun x => (x, 1)))] }
      else .error .AssertionFailed
    | none =>
      .ok { transforms := transforms
            dh_chains := []
            rectified_cams := [(s.sensor_id, b.camera.param_names.map (fun x => (x, 1)))] }

/-- Specification form of the camera-noise covariance: the 2Nx2N diagonal
matrix whose diagonal alternates var_u and var_v, one pair per observed point. -/
def camCovSpec (n : Nat) (var_u var_v : Q) : List (List Q) :=
  (List.range (2 * n)).map (fun i =>
    (List.range (2 * n)).map (fun j =>
      if i = j then (if i % 2 = 0 then var_u else var_v) else 0))

/-- Entry (r, c) of a 2x2 matrix, row and column indices in {0, 1}. -/
def entry2 (m : Mat2) (r c : Nat) : Q :=
  if r = 0 then (if c = 0 then m.a else m.b) else (if c = 0 then m.c else m.d)

/-- Specification form of the whitening operator: block-diagonal assembly of
one 2x2 block per observed point. -/
def gammaSpec (n : Nat) (f : Nat → Mat2) : List (List Q) :=
  (List.range (2 * n)).map (fun i =>
    (List.range (2 * n)).map (fun j =>
      if i / 2 = j / 2 then entry2 (f (i / 2)) (i % 2) (j % 2) else 0))

/-- Shape predicate for row-major list matrices: r rows, each of length c. -/
def matShape (r c : Nat) (M : List (List Q)) : Prop :=
  M.length = r ∧ ∀ i, i < r → (M.getD i []).length = c

instance (r c : Nat) (M : List (List Q)) : Decidable (matShape r c M) := by
  unfold matShape
  infer_instance

/-- Pure fold of the per-point block writes, used to describe the successful
runs of gammaLoop. -/
def foldW (f : Nat → Mat2) (gamma : List (List Q)) (ks : List Nat) : List (List Q) :=
  ks.foldl (fun g k => writeBlock g k (f k)) gamma

/-! Concrete data used to evaluate the theorems on explicit inputs. -/

/-- One homogeneous target point. -/
def tgt0 : Fin 4 → Q := fun _ => 0

/-- A singleton target point set. -/
def pts1 : List (Fin 4 → Q) := [tgt0]

def camInfo0 : CameraInfo := ⟨[]⟩

/-- Sample camera reading with one detected point at the origin. -/
def camMeas0 : CameraMeasurement := ⟨"cam0", [(0, 0)], camInfo0⟩

/-- Descriptor declaring a chain identifier that no sample will carry. -/
def cfgGhost : SensorConfig := ⟨"cam0", "cam0", ⟨["t0"], some "ghost_chain", ["t1"], 4⟩⟩

/-- Camera-only descriptor for the same camera. -/
def cfgCamOnly : SensorConfig := ⟨"cam0", "cam0", ⟨[], none, [], 0⟩⟩

/-- Sample carrying the camera but no chain readings at all. -/
def sample0 : RobotMeasurement := ⟨[camMeas0], []⟩

/-- Camera reading with two detected points. -/
def camMeas2 : CameraMeasurement := ⟨"cam2", [(0, 0), (1, 1)], camInfo0⟩

/-- Camera capability that always projects to the single pixel (5, 7). -/
def rcamConst : RectifiedCam := ⟨1/2, 1/2, ["baseline_shift", "f_shift"], fun _ _ => ([5], [7])⟩

/-- Camera capability with unit noise standard deviations. -/
def rcamUnit : RectifiedCam := ⟨1, 1, ["f_shift"], fun _ _ => ([5], [7])⟩

/-- Chain parameters with one link and the identity forward kinematics. -/
def calcId : CalcBlock := ⟨⟨[1], 1⟩, fun _ => 1⟩

/-- Chain parameters whose link count 2 disagrees with one measured joint. -/
def calcBad : CalcBlock := ⟨⟨[1], 2⟩, fun _ => 1⟩

/-- Bound camera-only sensor whose expected point count (1) disagrees with
its observed point count (2). -/
def sensorMismatch : CameraChainSensor :=
  ⟨⟨"cam2", "cam2", ⟨[], none, [], 0⟩⟩, camMeas2, none, some ⟨rcamConst, calcId⟩⟩

/-- Camera reading whose single observed pixel coincides with the constant
projection (5, 7). -/
def camMeas6 : CameraMeasurement := ⟨"cam6", [(5, 7)], camInfo0⟩

/-- Bound camera-only sensor whose expected equals its observed reading. -/
def sensor6 : CameraChainSensor :=
  ⟨⟨"cam6", "cam6", ⟨[], none, [], 0⟩⟩, camMeas6, none, some ⟨rcamConst, calcId⟩⟩

/-- Bound camera-only sensor with unit camera noise. -/
def sensor4 : CameraChainSensor :=
  ⟨⟨"cam6", "cam6", ⟨[], none, [], 0⟩⟩, camMeas6, none, some ⟨rcamUnit, calcId⟩⟩

def chainMeas1 : ChainMeasurement := ⟨"chainA", ⟨[0]⟩⟩

/-- Bound chain-bearing sensor with one joint and one observed point. -/
def sensorChain : CameraChainSensor :=
  ⟨⟨"cam6", "cam6", ⟨["t0"], some "chainA", ["t1"], 1⟩⟩, camMeas6,
    some chainMeas1, some ⟨rcamConst, calcId⟩⟩

/-- The same chain-bearing sensor bound to a link count that disagrees with
the measured joint count. -/
def sensorChainBad : CameraChainSensor :=
  ⟨⟨"cam6", "cam6", ⟨["t0"], some "chainA", ["t1"], 1⟩⟩, camMeas6,
    some chainMeas1, some ⟨rcamConst, calcBad⟩⟩

/-- Snapshot resolving camera "cam6" and any chain configuration. -/
def rp0 : RobotParams := ⟨[("cam6", rcamConst)], fun _ => some calcId⟩

/-- Square-root capability returning the real 2x2 identity. -/
def sqrtmId : Mat2 → CMat2 := fun _ => ⟨(1, 0), (0, 0), (0, 0), (1, 0)⟩

/-! Generic lemmas about `getD`, `set`, and the row-major list matrices. -/

/-- Reading after a single-cell write: the written value inside the list, the
old value elsewhere. -/
theorem getD_set_ite {α : Type _} (l : List α) (i j : Nat) (a d : α) :
    (l.set i a).getD j d = if j = i ∧ i < l.length then a else l.getD j d := by
  induction l generalizing i j with
  | nil => simp
  | cons x xs ih =>
    cases i with
    | zero =>
      cases j with
      | zero => simp
      | succ j' => simp
    | succ i' =>
      cases j with
      | zero => simp
      | succ j' =>
        simp only [List.set_cons_succ, List.getD_cons_succ, List.length_cons]
        rw [ih i' j']
        split_ifs <;> first | rfl | omega

/-- Reading a mapped range list. -/
theorem getD_map_range {α : Type _} (f : Nat → α) (n i : Nat) (d : α) :
    ((List.range n).map f).getD i d = if i < n then f i else d := by
  by_cases h : i < n
  · rw [if_pos h, List.getD_eq_getElem _ _ (by simpa using h)]
    simp
  · rw [if_neg h, List.getD_eq_default]
    simpa using Nat.le_of_not_lt h

/-- Reading a replicate list. -/
theorem getD_replicate_ite {α : Type _} (n : Nat) (a d : α) (i : Nat) :
    (List.replicate n a).getD i d = if i < n then a else d := by
  by_cases h : i < n
  · rw [if_pos h, List.getD_eq_getElem _ _ (by simpa using h)]
    simp
  · rw [if_neg h, List.getD_eq_default]
    simpa using Nat.le_of_not_lt h

theorem matShape_zeros (r c : Nat) : matShape r c (matZeros r c) := by
  unfold matShape matZeros
  refine ⟨by simp, fun i hi => ?_⟩
  rw [getD_replicate_ite, if_pos (by simpa using hi)]
  simp

theorem matShape_matSet {r c : Nat} {M : List (List Q)} (h : matShape r c M)
    (i j : Nat) (x : Q) : matShape r c (matSet M i j x) := by
  obtain ⟨hl, hrows⟩ := h
  unfold matShape matSet
  refine ⟨by simpa using hl, fun i' hi' => ?_⟩
  rw [getD_set_ite]
  split_ifs with hc
  · rw [List.length_set]
    exact hrows i (by omega)
  · exact hrows i' hi'

theorem getEntry_matZeros (r c i j : Nat) : getEntry (matZeros r c) i j = 0 := by
  unfold getEntry matZeros
  rw [getD_replicate_ite]
  split_ifs
  · rw [getD_replicate_ite]
    split_ifs <;> rfl
  · simp

/-- Reading after a single-entry matrix write inside the shape. -/
theorem getEntry_matSet {r c : Nat} {M : List (List Q)} (h : matShape r c M)
    {i j : Nat} (hi : i < r) (hj : j < c) (i' j' : Nat) (x : Q) :
    getEntry (matSet M i j x) i' j' =
      if i' = i ∧ j' = j then x else getEntry M i' j' := by
  have hlen : M.length = r := h.1
  have hrow : (M.getD i []).length = c := h.2 i hi
  unfold getEntry matSet
  rw [getD_set_ite]
  by_cases hii : i' = i
  · rw [if_pos ⟨hii, by omega⟩, getD_set_ite]
    by_cases hjj : j' = j
    · rw [if_pos ⟨hjj, by omega⟩, if_pos ⟨hii, hjj⟩]
    · rw [if_neg (by tauto), if_neg (by tauto), hii]
  · rw [if_neg (by tauto), if_neg (by tauto)]

/-- Two matrices of the same shape with equal entries are equal. -/
theorem matExt {r c : Nat} {A B : List (List Q)} (hA : matShape r c A)
    (hB : matShape r c B)
    (h : ∀ i, i < r → ∀ j, j < c → getEntry A i j = getEntry B i j) : A = B := by
  have hAl : A.length = r := hA.1
  have hBl : B.length = r := hB.1
  apply List.ext_getElem (by omega)
  intro i hiA hiB
  have hir : i < r := by omega
  have hrowA : A.getD i [] = A[i] := List.getD_eq_getElem A [] hiA
  have hrowB : B.getD i [] = B[i] := List.getD_eq_getElem B [] hiB
  have hlA : (A[i]).length = c := by rw [← hrowA]; exact hA.2 i hir
  have hlB : (B[i]).length = c := by rw [← hrowB]; exact hB.2 i hir
  apply List.ext_getElem (by omega)
  intro j hjA hjB
  have hjc : j < c := by omega
  have he := h i hir j hjc
  unfold getEntry at he
  rw [hrowA, hrowB, List.getD_eq_getElem _ _ hjA, List.getD_eq_getElem _ _ hjB] at he
  exact he

/-- Shape of a matrix given by a double range map. -/
theorem matShape_rangeMatrix (g : Nat → Nat → Q) (r c : Nat) :
    matShape r c ((List.range r).map (fun i => (List.range c).map (fun j => g i j))) := by
  refine ⟨by simp, fun i hi => ?_⟩
  rw [getD_map_range, if_pos hi]
  simp

/-- Entry of a matrix given by a double range map. -/
theorem getEntry_rangeMatrix (g : Nat → Nat → Q) {r c i j : Nat} (hi : i < r)
    (hj : j < c) :
    getEntry ((List.range r).map (fun i => (List.range c).map (fun j => g i j))) i j
      = g i j := by
  unfold getEntry
  rw [getD_map_range, if_pos hi, getD_map_range, if_pos hj]

/-! Characterization of the camera-noise covariance loop. -/

theorem camCovLoop_succ (m : Nat) (vu vv : Q) (k : Nat) :
    camCovLoop m vu vv (k + 1) =
      matSet (matSet (camCovLoop m vu vv k) (2 * k) (2 * k) vu)
        (2 * k + 1) (2 * k + 1) vv := by
  unfold camCovLoop
  rw [List.range_succ, List.foldl_append]
  rfl

theorem camCovLoop_shape (m : Nat) (vu vv : Q) (k : Nat) :
    matShape m m (camCovLoop m vu vv k) := by
  induction k with
  | zero => exact matShape_zeros m m
  | succ k ih =>
    rw [camCovLoop_succ]
    exact matShape_matSet (matShape_matSet ih _ _ _) _ _ _

theorem camCovLoop_entry (m : Nat) (vu vv : Q) :
    ∀ k, 2 * k ≤ m → ∀ i j, getEntry (camCovLoop m vu vv k) i j =
      if i = j ∧ i < 2 * k then (if i % 2 = 0 then vu else vv) else 0 := by
  intro k
  induction k with
  | zero =>
    intro _ i j
    unfold camCovLoop
    simp only [List.range_zero, List.foldl_nil]
    rw [getEntry_matZeros]
    split_ifs <;> first | rfl | omega
  | succ k ih =>
    intro hk i j
    rw [camCovLoop_succ]
    have hsh := camCovLoop_shape m vu vv k
    rw [getEntry_matSet (matShape_matSet hsh _ _ _) (by omega) (by omega),
      getEntry_matSet hsh (by omega) (by omega), ih (by omega) i j]
    split_ifs <;> first | rfl | omega

/-- Camera-noise covariance loop as run by compute_cov equals the alternating
diagonal specification matrix. -/
theorem camCovLoop_eq_spec (n : Nat) (vu vv : Q) :
    camCovLoop (n * 2) vu vv ((n * 2) / 2) = camCovSpec n vu vv := by
  have hd : (n * 2) / 2 = n := by omega
  have hm : n * 2 = 2 * n := by omega
  rw [hd, hm]
  apply matExt (camCovLoop_shape (2 * n) vu vv n)
    (by unfold camCovSpec; exact matShape_rangeMatrix _ _ _)
  intro i hi j hj
  rw [camCovLoop_entry (2 * n) vu vv n (by omega) i j]
  unfold camCovSpec
  rw [getEntry_rangeMatrix _ hi hj]
  split_ifs <;> first | rfl | omega

/-! Characterization of the block-diagonal whitening assembly. -/

theorem foldW_nil (f : Nat → Mat2) (gamma : List (List Q)) : foldW f gamma [] = gamma := rfl

theorem foldW_cons (f : Nat → Mat2) (gamma : List (List Q)) (k : Nat) (ks : List Nat) :
    foldW f gamma (k :: ks) = foldW f (writeBlock gamma k (f k)) ks := rfl

theorem writeBlock_shape {r c : Nat} {M : List (List Q)} (h : matShape r c M)
    (k : Nat) (B : Mat2) : matShape r c (writeBlock M k B) :=
  matShape_matSet (matShape_matSet (matShape_matSet (matShape_matSet h _ _ _) _ _ _) _ _ _) _ _ _

theorem getEntry_writeBlock {r c : Nat} {M : List (List Q)} (h : matShape r c M)
    {k : Nat} (hk1 : 2 * k + 1 < r) (hk2 : 2 * k + 1 < c) (B : Mat2) (i j : Nat) :
    getEntry (writeBlock M k B) i j =
      if i / 2 = k ∧ j / 2 = k then entry2 B (i % 2) (j % 2) else getEntry M i j := by
  unfold writeBlock
  rw [getEntry_matSet (matShape_matSet (matShape_matSet (matShape_matSet h _ _ _) _ _ _) _ _ _)
        (by omega) (by omega),
    getEntry_matSet (matShape_matSet (matShape_matSet h _ _ _) _ _ _) (by omega) (by omega),
    getEntry_matSet (matShape_matSet h _ _ _) (by omega) (by omega),
    getEntry_matSet h (by omega) (by omega)]
  unfold entry2
  split_ifs <;> first | rfl | omega

theorem foldW_shape {r c : Nat} (f : Nat → Mat2) :
    ∀ (ks : List Nat) (gamma : List (List Q)), matShape r c gamma →
      matShape r c (foldW f gamma ks) := by
  intro ks
  induction ks with
  | nil => intro gamma h; exact h
  | cons k rest ih =>
    intro gamma h
    rw [foldW_cons]
    exact ih _ (writeBlock_shape h _ _)

theorem getEntry_foldW {r c : Nat} (f : Nat → Mat2) :
    ∀ (ks : List Nat) (gamma : List (List Q)), matShape r c gamma →
      (∀ k ∈ ks, 2 * k + 1 < r ∧ 2 * k + 1 < c) → ∀ i j,
      getEntry (foldW f gamma ks) i j =
        if i / 2 = j / 2 ∧ i / 2 ∈ ks then entry2 (f (i / 2)) (i % 2) (j % 2)
        else getEntry gamma i j := by
  intro ks
  induction ks with
  | nil =>
    intro gamma _ _ i j
    rw [foldW_nil]
    simp
  | cons k rest ih =>
    intro gamma hsh hks i j
    obtain ⟨hk1, hk2⟩ := hks k (List.mem_cons_self k rest)
    rw [foldW_cons, ih _ (writeBlock_shape hsh _ _)
      (fun k' hk' => hks k' (List.mem_cons_of_mem _ hk'))]
    by_cases h1 : i / 2 = j / 2 ∧ i / 2 ∈ rest
    · rw [if_pos h1, if_pos ⟨h1.1, List.mem_cons_of_mem _ h1.2⟩]
    · rw [if_neg h1, getEntry_writeBlock hsh hk1 hk2]
      by_cases h2 : i / 2 = k ∧ j / 2 = k
      · have hij : i / 2 = j / 2 := by omega
        rw [if_pos h2, if_pos ⟨hij, by rw [h2.1]; exact List.mem_cons_self k rest⟩, h2.1]
      · rw [if_neg h2, if_neg ?hcond]
        case hcond =>
          intro hc
          rcases List.mem_cons.mp hc.2 with hk | hr
          · exact h2 ⟨hk, by omega⟩
          · exact h1 ⟨hc.1, hr⟩

/-- A run of gammaLoop in which every block is invertible and passes the
realness assertion produces the fold of the block writes. -/
theorem gammaLoop_ok (sqrtm : Mat2 → CMat2) (cov : List (List Q)) :
    ∀ (ks : List Nat) (gamma : List (List Q)),
      (∀ k ∈ ks, det2 (subCov2 cov k) ≠ 0) →
      (∀ k ∈ ks, imNormSq (sqrtm (inv2Closed (subCov2 cov k))) < tolReal * tolReal) →
      gammaLoop sqrtm cov ks gamma =
        .ok (foldW (fun k => re2 (sqrtm (inv2Closed (subCov2 cov k)))) gamma ks) := by
  intro ks
  induction ks with
  | nil => intro gamma _ _; rfl
  | cons k rest ih =>
    intro gamma hdet hpass
    have hd := hdet k (List.mem_cons_self k rest)
    have hp := hpass k (List.mem_cons_self k rest)
    simp only [gammaLoop, inv2, if_neg hd, if_pos hp]
    rw [foldW_cons]
    exact ih _ (fun k' hk' => hdet k' (List.mem_cons_of_mem _ hk'))
      (fun k' hk' => hpass k' (List.mem_cons_of_mem _ hk'))

/-- A run of gammaLoop that reaches an invertible block failing the realness
assertion stops with NonPositiveDefiniteCovariance. -/
theorem gammaLoop_fail (sqrtm : Mat2 → CMat2) (cov : List (List Q)) (k : Nat)
    (ks2 : List Nat)
    (hdk : det2 (subCov2 cov k) ≠ 0)
    (hfk : ¬ imNormSq (sqrtm (inv2Closed (subCov2 cov k))) < tolReal * tolReal) :
    ∀ (ks1 : List Nat) (gamma : List (List Q)),
      (∀ j ∈ ks1, det2 (subCov2 cov j) ≠ 0) →
      (∀ j ∈ ks1, imNormSq (sqrtm (inv2Closed (subCov2 cov j))) < tolReal * tolReal) →
      gammaLoop sqrtm cov (ks1 ++ k :: ks2) gamma =
        .error .NonPositiveDefiniteCovariance := by
  intro ks1
  induction ks1 with
  | nil =>
    intro gamma _ _
    simp only [List.nil_append, gammaLoop, inv2, if_neg hdk, if_neg hfk]
  | cons j rest ih =>
    intro gamma hdet hpass
    have hd := hdet j (List.mem_cons_self j rest)
    have hp := hpass j (List.mem_cons_self j rest)
    simp only [List.cons_append, gammaLoop, inv2, if_neg hd, if_pos hp]
    exact ih _ (fun j' hj' => hdet j' (List.mem_cons_of_mem _ hj'))
      (fun j' hj' => hpass j' (List.mem_cons_of_mem _ hj'))

/-- gammaLoop can fail only with SingularCovariance or
NonPositiveDefiniteCovariance, never with NotBound. -/
theorem gammaLoop_ne_notBound (sqrtm : Mat2 → CMat2) (cov : List (List Q)) :
    ∀ (ks : List Nat) (gamma : List (List Q)),
      gammaLoop sqrtm cov ks gamma ≠ .error .NotBound := by
  intro ks
  induction ks with
  | nil => intro gamma h; exact absurd h (by simp [gammaLoop])
  | cons k rest ih =>
    intro gamma
    by_cases hd : det2 (subCov2 cov k) = 0
    · simp [gammaLoop, inv2, hd]
    · by_cases hp : imNormSq (sqrtm (inv2Closed (subCov2 cov k))) < tolReal * tolReal
      · simp only [gammaLoop, inv2, if_neg hd, if_pos hp]
        exact ih _
      · simp [gammaLoop, inv2, hd, hp]

/-! Behaviour of the evaluation operations on bound and unbound sensors. -/

theorem npSub2_error {h z : List (Q × Q)} {e : Err} (he : npSub2 h z = .error e) :
    e = .ValueErrorShape := by
  unfold npSub2 at he
  split_ifs at he
  split at he <;> simp_all

theorem compute_expected_bound (s : CameraChainSensor) (b : BoundParams)
    (hb : s.bound = some b) (pts : List (Fin 4 → Q)) :
    ∃ hm, s.compute_expected pts = .ok hm := by
  unfold CameraChainSensor.compute_expected
  rw [hb]
  cases hmc : s.M_chain with
  | none => exact ⟨_, rfl⟩
  | some mc => exact ⟨_, rfl⟩

theorem compute_cov_bound (s : CameraChainSensor) (b : BoundParams)
    (hb : s.bound = some b) (pts : List (Fin 4 → Q)) :
    ∃ cov, s.compute_cov pts = .ok cov := by
  unfold CameraChainSensor.compute_cov
  rw [hb]
  cases hmc : s.M_chain with
  | none => exact ⟨_, rfl⟩
  | some mc => exact ⟨_, rfl⟩

/-- compute_residual on a bound sensor whose expected and observed point
counts agree: the flattened pointwise difference. -/
theorem compute_residual_ok (s : CameraChainSensor) (pts : List (Fin 4 → Q))
    (hm : List (Q × Q)) (hexp : s.compute_expected pts = .ok hm)
    (hlen : hm.length = s.get_measurement.length) :
    s.compute_residual pts =
      .ok (flatten2 (List.zipWith (fun a c => (a.1 - c.1, a.2 - c.2)) hm
        s.get_measurement)) := by
  have hs : npSub2 hm s.get_measurement =
      .ok (List.zipWith (fun a c => (a.1 - c.1, a.2 - c.2)) hm s.get_measurement) := by
    unfold npSub2
    rw [if_pos hlen]
  unfold CameraChainSensor.compute_residual
  simp only [hexp, eq_self_iff_true, if_true, hs]

/-- A failing compute_residual on a bound sensor carries a numpy shape error,
never NotBound (nor, in particular, the intended DimensionMismatch). -/
theorem compute_residual_bound_error (s : CameraChainSensor) (b : BoundParams)
    (hb : s.bound = some b) (pts : List (Fin 4 → Q)) {e : Err}
    (he : s.compute_residual pts = .error e) : e = .ValueErrorShape := by
  obtain ⟨hm, hexp⟩ := compute_expected_bound s b hb pts
  unfold CameraChainSensor.compute_residual at he
  simp only [hexp, eq_self_iff_true, if_true] at he
  cases hs : npSub2 hm s.get_measurement with
  | error e' =>
    simp only [hs] at he
    have he2 : e' = e := by simpa using he
    rw [← he2]
    exact npSub2_error hs
  | ok d =>
    simp only [hs] at he
    exact absurd he (by simp)

theorem compute_residual_bound_ne_notBound (s : CameraChainSensor) (b : BoundParams)
    (hb : s.bound = some b) (pts : List (Fin 4 → Q)) :
    s.compute_residual pts ≠ .error .NotBound := by
  intro he
  have := compute_residual_bound_error s b hb pts he
  simp at this

theorem compute_cov_bound_ne_notBound (s : CameraChainSensor) (b : BoundParams)
    (hb : s.bound = some b) (pts : List (Fin 4 → Q)) :
    s.compute_cov pts ≠ .error .NotBound := by
  obtain ⟨cov, hc⟩ := compute_cov_bound s b hb pts
  rw [hc]
  simp

theorem compute_gamma_bound_ne_notBound (s : CameraChainSensor) (b : BoundParams)
    (hb : s.bound = some b) (sqrtm : Mat2 → CMat2) (pts : List (Fin 4 → Q)) :
    s.compute_marginal_gamma_sqrt sqrtm pts ≠ .error .NotBound := by
  obtain ⟨cov, hcov⟩ := compute_cov_bound s b hb pts
  unfold CameraChainSensor.compute_marginal_gamma_sqrt
  rw [hcov]
  exact gammaLoop_ne_notBound sqrtm cov _ _

theorem compute_scaled_bound_ne_notBound (s : CameraChainSensor) (b : BoundParams)
    (hb : s.bound = some b) (sqrtm : Mat2 → CMat2) (pts : List (Fin 4 → Q)) :
    s.compute_residual_scaled sqrtm pts ≠ .error .NotBound := by
  unfold CameraChainSensor.compute_residual_scaled
  cases hr : s.compute_residual pts with
  | error e =>
    have := compute_residual_bound_error s b hb pts hr
    simp [this]
  | ok r =>
    cases hg : s.compute_marginal_gamma_sqrt sqrtm pts with
    | error e =>
      intro hc
      have : e = Err.NotBound := by simpa using hc
      rw [this] at hg
      exact compute_gamma_bound_ne_notBound s b hb sqrtm pts hg
    | ok gm => simp

/-! Flattening lemmas for the all-zero residual. -/

theorem flatten2_length (l : List (Q × Q)) : (flatten2 l).length = 2 * l.length := by
  induction l with
  | nil => rfl
  | cons p rest ih =>
    simp only [flatten2, List.length_cons, ih]
    omega

theorem zipWith_sub_self (l : List (Q × Q)) :
    List.zipWith (fun a c => (a.1 - c.1, a.2 - c.2)) l l =
      List.replicate l.length ((0 : Q), (0 : Q)) := by
  induction l with
  | nil => rfl
  | cons p rest ih => simp [List.replicate_succ, ih]

theorem flatten2_replicate_zero (n : Nat) :
    flatten2 (List.replicate n ((0 : Q), (0 : Q))) = List.replicate (2 * n) (0 : Q) := by
  induction n with
  | zero => rfl
  | succ n ih =>
    have h2 : 2 * (n + 1) = 2 * n + 1 + 1 := by omega
    rw [List.replicate_succ, h2, List.replicate_succ, List.replicate_succ]
    simp only [flatten2, ih]

/-! Early-exit behaviour of the bundler loop. -/

/-- Once the loop reaches a descriptor whose camera is in the sample but whose
declared, non-null chain identifier is not, it returns the accumulated
sensors and the descriptors after it are never examined. -/
theorem build_blocks_aux_break (M : RobotMeasurement) (c : SensorConfig)
    (cid : String) (post : List SensorConfig)
    (hcam : (M.M_cam.find? (fun x => x.camera_id == c.camera_id)).isSome)
    (hcid : c.chain.chain_id = some cid)
    (hchain : M.M_chain.find? (fun x => x.chain_id == cid) = none) :
    ∀ (pre : List SensorConfig) (acc : List CameraChainSensor),
      build_blocks_aux M (pre ++ c :: post) acc = build_blocks_aux M pre acc := by
  intro pre
  induction pre with
  | nil =>
    intro acc
    obtain ⟨mcam, hmc⟩ := Option.isSome_iff_exists.mp hcam
    simp only [List.nil_append, build_blocks_aux, hmc, hcid, hchain]
  | cons d rest ih =>
    intro acc
    simp only [List.cons_append, build_blocks_aux]
    split
    · exact ih acc
    · split
      · split
        · exact ih _
        · rfl
      · exact ih _

/-! Claim theorems. -/

/-- C1: the claim says a descriptor whose camera is in the sample but whose
declared non-null chain identifier is not must make build_blocks fail with
UnknownChainReference.  The code instead breaks out of the loop: on a library
whose first descriptor references the absent chain "ghost_chain", it returns
the empty sensor list without any error, even though the second, camera-only
descriptor would by itself have produced a sensor. -/
theorem claim_C1_break_not_error :
    CameraChainBundler.build_blocks [cfgGhost, cfgCamOnly] sample0 = [] ∧
    CameraChainBundler.build_blocks [cfgCamOnly] sample0 =
      [mkCameraChainSensor cfgCamOnly camMeas0 none] := by
  constructor <;> rfl

/-- C2: the claim says compute_residual must fail with DimensionMismatch
whenever the expected and observed point counts differ.  The code's count
assertion compares the observation count with itself, and numpy broadcasting
silently subtracts a one-point expected matrix from a two-point observation:
the sensor below succeeds with a length-4 residual although the counts are 1
and 2. -/
theorem claim_C2_broadcast_no_mismatch :
    sensorMismatch.compute_expected pts1 = .ok [(5, 7)] ∧
    sensorMismatch.get_measurement = [(0, 0), (1, 1)] ∧
    sensorMismatch.compute_residual pts1 = .ok [5, 7, 4, 6] := by
  refine ⟨rfl, rfl, ?_⟩
  have h1 : sensorMismatch.compute_residual pts1 =
      .ok [5 - 0, 7 - 0, 5 - 1, 7 - 1] := rfl
  have h2 : ([5 - 0, 7 - 0, 5 - 1, 7 - 1] : List Q) = [5, 7, 4, 6] := by norm_num
  rw [h1, h2]

/-- C6: on a bound sensor whose expected and observed point counts agree, the
residual is the row-major flattening [u1, v1, ..., uN, vN] of expected minus
observed, has length 2N, and is the all-zero vector of length 2N whenever
expected equals observed exactly. -/
theorem claim_C6_residual_flatten (s : CameraChainSensor) (pts : List (Fin 4 → Q))
    (hm : List (Q × Q)) (hexp : s.compute_expected pts = .ok hm)
    (hlen : hm.length = s.get_measurement.length) :
    s.compute_residual pts =
      .ok (flatten2 (List.zipWith (fun a c => (a.1 - c.1, a.2 - c.2)) hm
        s.get_measurement)) ∧
    (flatten2 (List.zipWith (fun a c => (a.1 - c.1, a.2 - c.2)) hm
      s.get_measurement)).length = 2 * s.get_measurement.length ∧
    (hm = s.get_measurement →
      s.compute_residual pts = .ok (List.replicate (2 * s.get_measurement.length) 0)) := by
  refine ⟨compute_residual_ok s pts hm hexp hlen, ?_, ?_⟩
  · rw [flatten2_length]
    have hz : (List.zipWith (fun a c => (a.1 - c.1, a.2 - c.2)) hm
        s.get_measurement).length = s.get_measurement.length := by
      rw [List.length_zipWith]
      omega
    rw [hz]
  · intro heq
    have hr := compute_residual_ok s pts hm hexp hlen
    rw [heq, zipWith_sub_self, flatten2_replicate_zero] at hr
    exact hr

/-- Witness for C6 at a concrete bound sensor whose constant projection
coincides with its single observed pixel. -/
theorem claim_C6_residual_flatten_witness :
    sensor6.compute_residual pts1 = .ok (List.replicate 2 0) := by
  have h := (claim_C6_residual_flatten sensor6 pts1 [(5, 7)] rfl rfl).2.2 rfl
  rw [show 2 * sensor6.get_measurement.length = 2 from rfl] at h
  exact h

/-- C7: a freshly constructed sensor answers every evaluation with NotBound;
a successful update_config leaves it bound, after which no evaluation returns
NotBound and the sensor can be rebound again with the same snapshot. -/
theorem claim_C7_not_bound_state (config : SensorConfig) (M_cam : CameraMeasurement)
    (M_chain : Option ChainMeasurement) (pts : List (Fin 4 → Q))
    (sqrtm : Mat2 → CMat2) (rp : RobotParams) :
    (mkCameraChainSensor config M_cam M_chain).compute_residual pts = .error .NotBound ∧
    (mkCameraChainSensor config M_cam M_chain).compute_residual_scaled sqrtm pts
      = .error .NotBound ∧
    (mkCameraChainSensor config M_cam M_chain).compute_cov pts = .error .NotBound ∧
    ∀ s', (mkCameraChainSensor config M_cam M_chain).update_config rp = .ok s' →
      s'.bound.isSome = true ∧
      s'.compute_residual pts ≠ .error .NotBound ∧
      s'.compute_residual_scaled sqrtm pts ≠ .error .NotBound ∧
      s'.compute_cov pts ≠ .error .NotBound ∧
      s'.compute_marginal_gamma_sqrt sqrtm pts ≠ .error .NotBound ∧
      ∃ s2, s'.update_config rp = .ok s2 := by
  refine ⟨rfl, rfl, rfl, ?_⟩
  intro s' hupd
  unfold CameraChainSensor.update_config at hupd
  simp only [mkCameraChainSensor] at hupd
  split at hupd
  · exact absurd hupd (by simp)
  next cam hl =>
    split at hupd
    · exact absurd hupd (by simp)
    next cb hr =>
      injection hupd with hs'
      subst hs'
      refine ⟨rfl, compute_residual_bound_ne_notBound _ ⟨cam, cb⟩ rfl pts,
        compute_scaled_bound_ne_notBound _ ⟨cam, cb⟩ rfl sqrtm pts,
        compute_cov_bound_ne_notBound _ ⟨cam, cb⟩ rfl pts,
        compute_gamma_bound_ne_notBound _ ⟨cam, cb⟩ rfl sqrtm pts, ?_⟩
      simp only [CameraChainSensor.update_config, mkCameraChainSensor, hl, hr]
      exact ⟨_, rfl⟩

/-- Witness for C7 at a concrete camera-only sensor and snapshot. -/
theorem claim_C7_not_bound_state_witness :
    (mkCameraChainSensor ⟨"cam6", "cam6", ⟨[], none, [], 0⟩⟩ camMeas6 none).compute_residual
      pts1 = .error .NotBound ∧
    ∃ s', (mkCameraChainSensor ⟨"cam6", "cam6", ⟨[], none, [], 0⟩⟩ camMeas6
      none).update_config rp0 = .ok s' ∧ s'.bound.isSome = true := by
  have h := claim_C7_not_bound_state ⟨"cam6", "cam6", ⟨[], none, [], 0⟩⟩ camMeas6 none
    pts1 sqrtmId rp0
  have hupd : (mkCameraChainSensor ⟨"cam6", "cam6", ⟨[], none, [], 0⟩⟩ camMeas6
      none).update_config rp0 = .ok { mkCameraChainSensor ⟨"cam6", "cam6", ⟨[], none, [], 0⟩⟩
        camMeas6 none with bound := some ⟨rcamConst, calcId⟩ } := rfl
  exact ⟨h.1, _, hupd, (h.2.2.2 _ hupd).1⟩

/-- C9: once build_blocks reaches a descriptor whose camera is in the sample
but whose declared, non-null chain identifier is not, it stops and returns
exactly the sensors collected from the descriptors before it; the return type
carries no error, so nothing is raised. -/
theorem claim_C9_bundler_early_return (pre post : List SensorConfig)
    (c : SensorConfig) (M : RobotMeasurement) (cid : String)
    (hcam : (M.M_cam.find? (fun x => x.camera_id == c.camera_id)).isSome)
    (hcid : c.chain.chain_id = some cid)
    (hchain : M.M_chain.find? (fun x => x.chain_id == cid) = none) :
    CameraChainBundler.build_blocks (pre ++ c :: post) M =
      CameraChainBundler.build_blocks pre M := by
  unfold CameraChainBundler.build_blocks
  exact build_blocks_aux_break M c cid post hcam hcid hchain pre []

/-- Witness for C9 on a concrete library with the breaking descriptor in the
middle: the trailing camera-only descriptor is never reached. -/
theorem claim_C9_bundler_early_return_witness :
    CameraChainBundler.build_blocks [cfgCamOnly, cfgGhost, cfgCamOnly] sample0 =
      CameraChainBundler.build_blocks [cfgCamOnly] sample0 :=
  claim_C9_bundler_early_return [cfgCamOnly] [cfgCamOnly] cfgGhost sample0
    "ghost_chain" rfl rfl rfl

/-- C3: on a bound sensor the covariance is J^T diag(joint variances) J plus
the alternating-diagonal camera-noise covariance when a chain reading is
bound, and the camera-noise covariance alone when none is; the joint
variances are the squares of the configured per-joint standard deviations and
the camera variances the squares of the per-axis noise standard deviations. -/
theorem claim_C3_covariance_decomposition (s : CameraChainSensor) (b : BoundParams)
    (pts : List (Fin 4 → Q)) (hb : s.bound = some b) :
    (∀ mc, s.M_chain = some mc →
      s.compute_cov pts = .ok (matAdd
        (matMul (matMul
          (matTranspose (computeJt b s.M_cam.cam_info mc.chain_state.position pts))
          (diagQ (b.calc_block.chainInfo.cov_joint_angles.map (fun sd => sd * sd))))
          (computeJt b s.M_cam.cam_info mc.chain_state.position pts))
        (camCovSpec s.M_cam.image_points.length (b.camera.cov_u * b.camera.cov_u)
          (b.camera.cov_v * b.camera.cov_v)))) ∧
    (s.M_chain = none →
      s.compute_cov pts = .ok (camCovSpec s.M_cam.image_points.length
        (b.camera.cov_u * b.camera.cov_u) (b.camera.cov_v * b.camera.cov_v))) := by
  constructor
  · intro mc hmc
    simp only [CameraChainSensor.compute_cov, hb, hmc,
      CameraChainSensor.get_residual_length, camCovLoop_eq_spec]
  · intro hmc
    simp only [CameraChainSensor.compute_cov, hb, hmc,
      CameraChainSensor.get_residual_length, camCovLoop_eq_spec]

/-- Witness for C3 at a concrete one-joint chain sensor and at a concrete
camera-only sensor. -/
theorem claim_C3_covariance_decomposition_witness :
    sensorChain.compute_cov pts1 = .ok (matAdd
      (matMul (matMul (matTranspose (computeJt ⟨rcamConst, calcId⟩
          sensorChain.M_cam.cam_info chainMeas1.chain_state.position pts1))
        (diagQ (calcId.chainInfo.cov_joint_angles.map (fun sd => sd * sd))))
        (computeJt ⟨rcamConst, calcId⟩ sensorChain.M_cam.cam_info
          chainMeas1.chain_state.position pts1))
      (camCovSpec sensorChain.M_cam.image_points.length
        (rcamConst.cov_u * rcamConst.cov_u) (rcamConst.cov_v * rcamConst.cov_v))) ∧
    sensor6.compute_cov pts1 = .ok (camCovSpec sensor6.M_cam.image_points.length
      (rcamConst.cov_u * rcamConst.cov_u) (rcamConst.cov_v * rcamConst.cov_v)) :=
  ⟨(claim_C3_covariance_decomposition sensorChain ⟨rcamConst, calcId⟩ pts1 rfl).1
      chainMeas1 rfl,
   (claim_C3_covariance_decomposition sensor6 ⟨rcamConst, calcId⟩ pts1 rfl).2 rfl⟩

/-- C5: inside the covariance computation, the sensitivity matrix is the
forward one-sided finite-difference Jacobian: the perturbed state of row i
increments exactly joint coordinate i by the fixed step while every other
coordinate keeps its base value, and row i is (perturbed - base) / epsilon of
the flattened expected-pixel vector, the base vector being the one computed
from the unperturbed state. -/
theorem claim_C5_forward_difference_jacobian (b : BoundParams) (ci : CameraInfo)
    (base : List Q) (pts : List (Fin 4 → Q)) (i : Nat) (hi : i < base.length) :
    (computeJt b ci base pts).length = base.length ∧
    (perturbPos base i).length = base.length ∧
    (∀ j, j ≠ i → (perturbPos base i).getD j 0 = base.getD j 0) ∧
    (perturbPos base i).getD i 0 = base.getD i 0 + epsFD ∧
    (computeJt b ci base pts).getD i [] =
      List.zipWith (fun ft f0k => (ft - f0k) / epsFD)
        (flatExpected b ci (perturbPos base i) pts) (flatExpected b ci base pts) := by
  refine ⟨?_, ?_, ?_, ?_, ?_⟩
  · unfold computeJt
    simp
  · unfold perturbPos
    simp
  · intro j hj
    unfold perturbPos
    rw [getD_set_ite, if_neg (by tauto)]
  · unfold perturbPos
    rw [getD_set_ite, if_pos ⟨rfl, hi⟩]
  · simp only [computeJt]
    rw [getD_map_range, if_pos hi]

/-- Witness for C5 at a concrete one-joint bound chain. -/
theorem claim_C5_forward_difference_jacobian_witness :
    (computeJt ⟨rcamConst, calcId⟩ camInfo0 [0] pts1).getD 0 [] =
      List.zipWith (fun ft f0k => (ft - f0k) / epsFD)
        (flatExpected ⟨rcamConst, calcId⟩ camInfo0 (perturbPos [0] 0) pts1)
        (flatExpected ⟨rcamConst, calcId⟩ camInfo0 [0] pts1) ∧
    (perturbPos ([0] : List Q) 0).getD 0 0 = (0 : Q) + epsFD := by
  have h := claim_C5_forward_difference_jacobian ⟨rcamConst, calcId⟩ camInfo0 [0] pts1 0
    (by decide)
  exact ⟨h.2.2.2.2, h.2.2.2.1⟩

/-- C8: on a bound sensor, the sparsity report maps every before/after
transform name to the all-ones 6-vector, the chain identifier (when a chain
reading is bound and the link assertion holds) to link-count all-ones
4-element geometry rows plus a link-count all-ones gearing vector, and the
camera identifier to one flag per reported camera parameter name; rebinding
to any snapshot with the same link count and parameter names leaves the
report unchanged, so snapshot values never affect it. -/
theorem claim_C8_sparsity_shape (s : CameraChainSensor) (b : BoundParams)
    (hb : s.bound = some b) :
    (∀ mc, s.M_chain = some mc →
      b.calc_block.chainInfo.M = mc.chain_state.position.length →
      s.build_sparsity_dict = .ok
        { transforms := (s.config_dict.chain.before_chain ++
            s.config_dict.chain.after_chain).map (fun nm => (nm, [1, 1, 1, 1, 1, 1]))
          dh_chains := [(s.config_dict.chain.chain_id,
            ⟨List.replicate b.calc_block.chainInfo.M [1, 1, 1, 1],
             List.replicate b.calc_block.chainInfo.M 1⟩)]
          rectified_cams := [(s.sensor_id,
            b.camera.param_names.map (fun x => (x, 1)))] }) ∧
    (s.M_chain = none →
      s.build_sparsity_dict = .ok
        { transforms := (s.config_dict.chain.before_chain ++
            s.config_dict.chain.after_chain).map (fun nm => (nm, [1, 1, 1, 1, 1, 1]))
          dh_chains := []
          rectified_cams := [(s.sensor_id,
            b.camera.param_names.map (fun x => (x, 1)))] }) ∧
    (∀ b2 : BoundParams, b2.calc_block.chainInfo.M = b.calc_block.chainInfo.M →
      b2.camera.param_names = b.camera.param_names →
      ({ s with bound := some b2 } : CameraChainSensor).build_sparsity_dict =
        s.build_sparsity_dict) := by
  refine ⟨?_, ?_, ?_⟩
  · intro mc hmc hM
    simp only [CameraChainSensor.build_sparsity_dict, hb, hmc]
    rw [if_pos hM]
  · intro hmc
    simp only [CameraChainSensor.build_sparsity_dict, hb, hmc]
  · intro b2 hM hnames
    cases hmc : s.M_chain with
    | none =>
      simp only [CameraChainSensor.build_sparsity_dict, CameraChainSensor.sensor_id,
        hb, hmc, hnames]
    | some mc =>
      simp only [CameraChainSensor.build_sparsity_dict, CameraChainSensor.sensor_id,
        hb, hmc, hM, hnames]

/-- Witness for C8 at a concrete chain-bearing sensor: explicit report, and
invariance under a rebind that changes only numeric snapshot values. -/
theorem claim_C8_sparsity_shape_witness :
    sensorChain.build_sparsity_dict = .ok
      { transforms := [("t0", [1, 1, 1, 1, 1, 1]), ("t1", [1, 1, 1, 1, 1, 1])]
        dh_chains := [(some "chainA", ⟨[[1, 1, 1, 1]], [1]⟩)]
        rectified_cams := [("cam6", [("baseline_shift", 1), ("f_shift", 1)])] } ∧
    ({ sensorChain with bound := some ⟨⟨9, 9, rcamConst.param_names, rcamConst.project⟩,
        ⟨⟨[5], 1⟩, fun _ => 1⟩⟩ } : CameraChainSensor).build_sparsity_dict =
      sensorChain.build_sparsity_dict := by
  have h := claim_C8_sparsity_shape sensorChain ⟨rcamConst, calcId⟩ rfl
  constructor
  · have h1 := h.1 chainMeas1 rfl rfl
    rw [h1]
    rfl
  · exact h.2.2 ⟨⟨9, 9, rcamConst.param_names, rcamConst.project⟩,
      ⟨⟨[5], 1⟩, fun _ => 1⟩⟩ rfl rfl

/-- C10: on a bound chain-bearing sensor the sparsity builder asserts that
the resolved link count equals the measured joint count: it fails with the
assertion when they differ, and when they agree it returns a report whose
geometry list has exactly one row per link and whose gearing vector has
exactly one entry per link. -/
theorem claim_C10_sparsity_link_assert (s : CameraChainSensor) (b : BoundParams)
    (mc : ChainMeasurement) (hb : s.bound = some b) (hmc : s.M_chain = some mc) :
    (b.calc_block.chainInfo.M ≠ mc.chain_state.position.length →
      s.build_sparsity_dict = .error .AssertionFailed) ∧
    (b.calc_block.chainInfo.M = mc.chain_state.position.length →
      ∃ d, s.build_sparsity_dict = .ok d ∧
        d.dh_chains = [(s.config_dict.chain.chain_id,
          ⟨List.replicate b.calc_block.chainInfo.M [1, 1, 1, 1],
           List.replicate b.calc_block.chainInfo.M 1⟩)] ∧
        (List.replicate b.calc_block.chainInfo.M ([1, 1, 1, 1] : List Nat)).length =
          b.calc_block.chainInfo.M ∧
        (List.replicate b.calc_block.chainInfo.M (1 : Nat)).length =
          b.calc_block.chainInfo.M) := by
  constructor
  · intro hne
    simp only [CameraChainSensor.build_sparsity_dict, hb, hmc]
    rw [if_neg hne]
  · intro he
    simp only [CameraChainSensor.build_sparsity_dict, hb, hmc]
    rw [if_pos he]
    exact ⟨_, rfl, rfl, by simp, by simp⟩

/-- Witness for C10: the mismatching bound sensor fails the assertion, the
matching one reports one geometry row and one gearing entry for its link. -/
theorem claim_C10_sparsity_link_assert_witness :
    sensorChainBad.build_sparsity_dict = .error .AssertionFailed ∧
    ∃ d, sensorChain.build_sparsity_dict = .ok d ∧
      d.dh_chains = [(some "chainA", ⟨[[1, 1, 1, 1]], [1]⟩)] := by
  constructor
  · exact (claim_C10_sparsity_link_assert sensorChainBad ⟨rcamConst, calcBad⟩
      chainMeas1 rfl rfl).1 (by decide)
  · obtain ⟨d, hd, hdh, h1, h2⟩ := (claim_C10_sparsity_link_assert sensorChain
      ⟨rcamConst, calcId⟩ chainMeas1 rfl rfl).2 (by decide)
    refine ⟨d, hd, ?_⟩
    rw [hdh]
    rfl

/-- Splitting a range at an interior point. -/
theorem range_split (k n : Nat) (h : k < n) :
    ∃ rest, List.range n = List.range k ++ k :: rest := by
  have hn : n = k + (n - k - 1 + 1) := by omega
  refine ⟨(List.range (n - k - 1)).map (fun x => k + (x + 1)), ?_⟩
  calc List.range n = List.range (k + (n - k - 1 + 1)) := by rw [← hn]
    _ = List.range k ++ (List.range (n - k - 1 + 1)).map (fun x => k + x) :=
        List.range_add k (n - k - 1 + 1)
    _ = List.range k ++ (0 :: (List.range (n - k - 1)).map Nat.succ).map
        (fun x => k + x) := by rw [List.range_succ_eq_map]
    _ = List.range k ++ k :: (List.range (n - k - 1)).map (fun x => k + (x + 1)) := by
        simp [List.map_map, Function.comp_def, Nat.succ_eq_add_one]

/-- C4: on a bound sensor with invertible per-point covariance blocks, the
whitening operator is assembled block-diagonally from the real parts of the
principal square roots (computed by the external sqrtm capability) of the
inverses of the 2x2 diagonal covariance blocks, provided every discarded
imaginary part passes the fixed 1e-6 tolerance; the first block failing the
tolerance aborts the computation with NonPositiveDefiniteCovariance instead
of silently keeping the real part. -/
theorem claim_C4_whitening_blocks (s : CameraChainSensor) (sqrtm : Mat2 → CMat2)
    (pts : List (Fin 4 → Q)) (cov : List (List Q))
    (hcov : s.compute_cov pts = .ok cov)
    (hshape : matShape s.get_residual_length s.get_residual_length cov)
    (hpos : 0 < s.M_cam.image_points.length)
    (hdet : ∀ k, k < s.get_residual_length / 2 → det2 (subCov2 cov k) ≠ 0) :
    ((∀ k, k < s.get_residual_length / 2 →
        imNormSq (sqrtm (inv2Closed (subCov2 cov k))) < tolReal * tolReal) →
      s.compute_marginal_gamma_sqrt sqrtm pts =
        .ok (gammaSpec (s.get_residual_length / 2)
          (fun k => re2 (sqrtm (inv2Closed (subCov2 cov k)))))) ∧
    (∀ k, k < s.get_residual_length / 2 →
      (∀ j, j < k → imNormSq (sqrtm (inv2Closed (subCov2 cov j))) < tolReal * tolReal) →
      ¬ imNormSq (sqrtm (inv2Closed (subCov2 cov k))) < tolReal * tolReal →
      s.compute_marginal_gamma_sqrt sqrtm pts =
        .error .NonPositiveDefiniteCovariance) := by
  have hres : s.get_residual_length = s.M_cam.image_points.length * 2 := rfl
  have h0 : 0 < s.get_residual_length := by rw [hres]; omega
  have h2n : 2 * (s.get_residual_length / 2) = s.get_residual_length := by
    rw [hres]; omega
  have hhead : (cov.headD []).length = s.get_residual_length := by
    have hg := hshape.2 0 h0
    cases hc : cov with
    | nil =>
      have := hshape.1
      rw [hc] at this
      simp at this
      omega
    | cons r t =>
      rw [hc] at hg
      simpa using hg
  have hzero : matShape s.get_residual_length s.get_residual_length
      (matZeros cov.length (cov.headD []).length) := by
    rw [hshape.1, hhead]
    exact matShape_zeros _ _
  constructor
  · intro hpass
    unfold CameraChainSensor.compute_marginal_gamma_sqrt
    simp only [hcov]
    rw [gammaLoop_ok sqrtm cov (List.range (s.get_residual_length / 2)) _
      (fun k hk => hdet k (List.mem_range.mp hk))
      (fun k hk => hpass k (List.mem_range.mp hk))]
    congr 1
    apply matExt (r := s.get_residual_length) (c := s.get_residual_length)
      (foldW_shape _ _ _ hzero)
    · unfold gammaSpec
      rw [h2n]
      exact matShape_rangeMatrix _ _ _
    · intro i hi j hj
      rw [getEntry_foldW _ _ _ hzero
        (fun k hk => by
          have := List.mem_range.mp hk
          omega) i j]
      unfold gammaSpec
      rw [getEntry_rangeMatrix _ (by omega) (by omega)]
      by_cases hc : i / 2 = j / 2
      · rw [if_pos ⟨hc, List.mem_range.mpr (by omega)⟩, if_pos hc]
      · rw [if_neg (by tauto), if_neg hc, getEntry_matZeros]
  · intro k hk hprev hfail
    unfold CameraChainSensor.compute_marginal_gamma_sqrt
    simp only [hcov]
    obtain ⟨rest, hdecomp⟩ := range_split k (s.get_residual_length / 2) hk
    rw [hdecomp]
    exact gammaLoop_fail sqrtm cov k rest (hdet k hk) hfail (List.range k) _
      (fun j hj => hdet j (by have := List.mem_range.mp hj; omega))
      (fun j hj => hprev j (List.mem_range.mp hj))

/-- Witness for C4 at a concrete camera-only sensor with unit noise: the
identity covariance blocks pass the realness check and produce the assembled
block-diagonal operator. -/
theorem claim_C4_whitening_blocks_witness :
    sensor4.compute_marginal_gamma_sqrt sqrtmId pts1 =
      .ok (gammaSpec 1 (fun k => re2 (sqrtmId (inv2Closed
        (subCov2 [[1 * 1, 0], [0, 1 * 1]] k))))) := by
  refine (claim_C4_whitening_blocks sensor4 sqrtmId pts1 [[1 * 1, 0], [0, 1 * 1]] rfl
    (by decide) (by decide) ?_).1 ?_
  · intro k hk
    have hk1 : k < 1 := hk
    have hk0 : k = 0 := by omega
    subst hk0
    norm_num [det2, subCov2, getEntry]
  · intro k hk
    norm_num [imNormSq, sqrtmId, tolReal]

end CobCalib
